import Mathlib

/-!
Verification development for `aggregate_payments.py` (PaymentAggregation).

The source program parses a BPY331 payment batch file into `Payment` records,
resolves each record to an account reference through a reference store,
groups records by that reference, sums the per-group amounts and writes the
aggregated records back out.  The definitions below are a shallow embedding
of that source: strings stay strings, Python `float` arithmetic is modelled
exactly as IEEE 754 binary64 over scaled integers, fallible operations
(list indexing, `float()` parsing) return `Option`, and the external
reference store (the SQL database together with the repository's
`sql/insert_query.sql` and `sql/select_query.sql`, which are not part of the
sources here) is modelled from the spec as an insert-if-absent /
lookup association list.
-/

namespace PaymentAgg

/-- Python slice `s[1:-2]`: the characters of `s` from index 1 up to but not
including index `len - 2` (empty when the range is empty), exactly as used by
`Payment.get_sql_fields` in the source. -/
def pySlice1m2 (s : String) : String :=
  ⟨(s.data.drop 1).take (s.data.length - 3)⟩

/-- Whitespace characters recognised when Python's `float()` strips a string
(ASCII fragment). -/
def isPyWs (c : Char) : Bool :=
  c = ' ' || c = '\t' || c = '\n' || c = '\r' || c = '\x0b' || c = '\x0c'

/-- Numeric value of a list of decimal digit characters. -/
def digitsVal (l : List Char) : ℕ :=
  l.foldl (fun a c => a * 10 + (c.toNat - 48)) 0

/-- Parses a plain decimal literal `[sign] digits [. digits]` (at least one
digit overall) into `(mantissa, scale)` with value `mantissa / 10 ^ scale`.
This is the exact value of the decimal fragment of Python's `float()` /
`Decimal` literal grammar; exponent, `inf`/`nan` and underscore forms are out
of scope of this development and yield `none`. -/
def parseDecCore (l : List Char) : Option (ℤ × ℕ) :=
  let (sgn, l1) : ℤ × List Char :=
    match l with
    | '-' :: r => (-1, r)
    | '+' :: r => (1, r)
    | r => (1, r)
  let ip := l1.takeWhile (fun c => c ≠ '.')
  let rest := l1.dropWhile (fun c => c ≠ '.')
  if ip.all Char.isDigit then
    match rest with
    | [] =>
        if ip.isEmpty then none else some (sgn * (digitsVal ip : ℤ), 0)
    | '.' :: fp =>
        if fp.all Char.isDigit ∧ ¬(ip.isEmpty ∧ fp.isEmpty) then
          some (sgn * (digitsVal (ip ++ fp) : ℤ), fp.length)
        else none
    | _ => none
  else none

/-- Parses a string the way Python's `float()` reads a plain decimal literal:
surrounding whitespace is stripped, then the `[sign] digits [. digits]` form
is read; the result is the exact decimal value `(mantissa, scale)`. -/
def parsePyDec (s : String) : Option (ℤ × ℕ) :=
  parseDecCore (((s.data.dropWhile isPyWs).reverse.dropWhile isPyWs).reverse)

/-- Number of binary digits of `n` (`0` for `n = 0`), computed with explicit
fuel so that the kernel can evaluate it. -/
def bitlenAux : ℕ → ℕ → ℕ
  | 0, _ => 0
  | f + 1, n => if n = 0 then 0 else bitlenAux f (n / 2) + 1

/-- Number of binary digits of `n`: `2 ^ (bitlen n - 1) ≤ n < 2 ^ bitlen n`
for `n ≠ 0`. -/
def bitlen (n : ℕ) : ℕ := bitlenAux (n + 1) n

/-- Round-to-nearest, ties to even, of the fraction `n / d` (for `d > 0`):
the integer nearest to `n / d`, with the even neighbour chosen on a tie.
This is the rounding used both by IEEE 754 binary64 arithmetic and by
Python's fixed-precision float formatting. -/
def rneRound (n d : ℕ) : ℕ :=
  let q := n / d
  let r := n % d
  if 2 * r < d then q
  else if d < 2 * r then q + 1
  else if q % 2 = 0 then q else q + 1

/-- Rounds the positive rational `A / B` (`A, B > 0`) to the nearest IEEE 754
binary64 value, returned as `(m, u)` with value `m * 2 ^ u`; normal results
have `2 ^ 52 ≤ m < 2 ^ 53`, subnormal results have `u = -1074`.  Overflow
(magnitude at least `2 ^ 1024`) yields `none` (the source cannot reach it on
the inputs in scope). -/
def floatRoundPos (A B : ℕ) : Option (ℕ × ℤ) :=
  if A = 0 ∨ B = 0 then some (0, 0)
  else
    let S := bitlen B
    let E : ℤ := (bitlen (A * 2 ^ S / B) : ℤ) - 1 - S
    let u : ℤ := max (E - 52) (-1074)
    let m := if u ≤ 0 then rneRound (A * 2 ^ (-u).toNat) B
             else rneRound A (B * 2 ^ u.toNat)
    let mu : ℕ × ℤ := if m = 2 ^ 53 then (2 ^ 52, u + 1) else (m, u)
    if 0 ≤ mu.2 ∧ 2 ^ 1024 ≤ mu.1 * 2 ^ mu.2.toNat then none else some mu

/-- Attaches the sign `s` to a magnitude/exponent pair. -/
def applySign (s : ℤ) (p : ℕ × ℤ) : ℤ × ℤ :=
  (if s < 0 then -(p.1 : ℤ) else (p.1 : ℤ), p.2)

/-- Nearest binary64 value of the rational `n / d` (`d > 0`), as a pair
`(M, e)` with exact value `M * 2 ^ e`. -/
def floatOfRat (n : ℤ) (d : ℕ) : Option (ℤ × ℤ) :=
  (floatRoundPos n.natAbs d).map (applySign n)

/-- Exact value of Python `float(s)` for a plain decimal string, as a pair
`(M, e)` with value `M * 2 ^ e`; `none` when `float()` would raise
`ValueError` (or on the out-of-scope forms noted at `parseDecCore`). -/
def pyFloat (s : String) : Option (ℤ × ℤ) := do
  let (a, k) ← parsePyDec s
  floatOfRat a (10 ^ k)

/-- IEEE 754 binary64 addition of two exactly represented values: the exact
sum is formed over a common power-of-two scale and rounded to nearest, ties
to even. -/
def floatAdd (x y : ℤ × ℤ) : Option (ℤ × ℤ) :=
  let e := min x.2 y.2
  let S := x.1 * 2 ^ (x.2 - e).toNat + y.1 * 2 ^ (y.2 - e).toNat
  if S = 0 then some (0, 0)
  else if 0 ≤ e then (floatRoundPos (S.natAbs * 2 ^ e.toNat) 1).map (applySign S)
  else (floatRoundPos S.natAbs (2 ^ (-e).toNat)).map (applySign S)

/-- Two-digit decimal string for `n < 100` (zero padded), used for the cents
part of the fixed two-decimal format. -/
def twoDigits (n : ℕ) : String :=
  if n < 10 then "0" ++ Nat.repr n else Nat.repr n

/-- Decimal string with two decimal places for a signed number of cents. -/
def centsString (neg : Bool) (c : ℕ) : String :=
  (if neg then "-" else "") ++ Nat.repr (c / 100) ++ "." ++ twoDigits (c % 100)

/-- Python `'{0:.2f}'.format(t)` on a binary64 value `(M, e)` (value
`M * 2 ^ e`): the exact value is correctly rounded to a whole number of
cents, ties to even, and printed with two decimal places. -/
def fmt2 (v : ℤ × ℤ) : String :=
  let M := v.1.natAbs
  let c := if 0 ≤ v.2 then M * 100 * 2 ^ v.2.toNat
           else rneRound (M * 100) (2 ^ (-v.2).toNat)
  centsString (v.1 < 0) c

/-- A payment record according to the BPY331 format: the 29 fields of the
source's `Payment.__init__`, in the insertion order of its `defaults`
dictionary (which is also the order `__dict__` iterates in when a record is
printed or written back).  Every field is a string, stored exactly as read
from the file, quotes and trailing whitespace included.  The field name
`claimant_adddress` reproduces the source's spelling. -/
structure Payment where
  interface_source : String
  batch_run_id : String
  posting_ref : String
  account_ref : String
  payee_type : String
  payee_name : String
  payee_address : String
  claim_ref : String
  claimant_name : String
  claimant_adddress : String
  amount : String
  posting_start_date : String
  posting_end_date : String
  payment_method : String
  creditor_account_ref : String
  sort_code : String
  bank_account : String
  bank_account_name : String
  building_society_num : String
  post_office_name : String
  post_office_address : String
  collection_flag : String
  document_num : String
  document_type : String
  replacement_flag : String
  effective_date : String
  blank_one : String
  blank_two : String
  document_date : String
deriving DecidableEq

/-- The `defaults` dictionary of `Payment.__init__`: the record every
constructor call starts from.  `systime` is the module global `SYSTIME`
(today's date formatted `DD-MON-YYYY`), a parameter here so the embedding
stays pure. -/
def defaultPayment (systime : String) : Payment where
  interface_source := "\"BEN\""
  batch_run_id := "\"NOT SET\""
  posting_ref := "\"NOT SET\""
  account_ref := "\"NOT SET\""
  payee_type := "\"CL\""
  payee_name := "\"NOT SET\""
  payee_address := "\"NOT SET\""
  claim_ref := "\"NOT SET\""
  claimant_name := "\"Aggregated DHP UC Payment\""
  claimant_adddress := "\"Aggregated DHP UC Payment\""
  amount := "\"amount\""
  posting_start_date := "\"" ++ systime ++ "\""
  posting_end_date := "\"" ++ systime ++ "\""
  payment_method := "\"BACS\""
  creditor_account_ref := "\"\""
  sort_code := "\"NOT SET\""
  bank_account := "\"NOT SET\""
  bank_account_name := "\"NOT SET\""
  building_society_num := "\"NOT SET\""
  post_office_name := "\"\""
  post_office_address := "\"\""
  collection_flag := "\"N\""
  document_num := "\"\""
  document_type := "\"\""
  replacement_flag := "\"N\""
  effective_date := "\"" ++ systime ++ "\""
  blank_one := "\"\""
  blank_two := "\"\""
  document_date := "\"\""

/-- The four identity columns used against the SQL database. -/
structure SqlFields where
  bank_account : String
  sort_code : String
  payee_name : String
  building_society_num : String
deriving DecidableEq

/-- The source's `Payment.get_sql_fields`: the bank account, sort code,
payee name and building society number of the record, each put through the
Python slice `[1:-2]` (the source's way of removing the surrounding quotes
and trailing whitespace). -/
def Payment.get_sql_fields (p : Payment) : SqlFields where
  bank_account := pySlice1m2 p.bank_account
  sort_code := pySlice1m2 p.sort_code
  payee_name := pySlice1m2 p.payee_name
  building_society_num := pySlice1m2 p.building_society_num

/-- The record's fields in the order `__dict__` iterates them (the
`defaults` insertion order), skipping the `defaults` entry itself — the
order `print_payment` and `write_payments` emit them in. -/
def paymentFields (p : Payment) : List String :=
  [p.interface_source, p.batch_run_id, p.posting_ref, p.account_ref,
   p.payee_type, p.payee_name, p.payee_address, p.claim_ref,
   p.claimant_name, p.claimant_adddress, p.amount, p.posting_start_date,
   p.posting_end_date, p.payment_method, p.creditor_account_ref,
   p.sort_code, p.bank_account, p.bank_account_name,
   p.building_society_num, p.post_office_name, p.post_office_address,
   p.collection_flag, p.document_num, p.document_type,
   p.replacement_flag, p.effective_date, p.blank_one, p.blank_two,
   p.document_date]

/-- One iteration of the loop body of `create_payments`: the `Payment(...)`
call on the block that starts at the current index.  `l` is the suffix of
the line list from the block's first line; the constructor reads the
block-relative offsets 1, 2, 17, 6, 7, 10, 15, 16, 17, 18 (Python raises
`IndexError`, here `none`, when an offset is past the end of the list). -/
def mkBlockPayment (systime : String) (l : List String) : Option Payment := do
  let batch ← l.get? 1
  let post ← l.get? 2
  let pname ← l.get? 17
  let paddr ← l.get? 6
  let cref ← l.get? 7
  let amt ← l.get? 10
  let sc ← l.get? 15
  let ba ← l.get? 16
  let ban ← l.get? 17
  let bsn ← l.get? 18
  some { defaultPayment systime with
          batch_run_id := batch
          posting_ref := post
          payee_name := pname
          payee_address := paddr
          claim_ref := cref
          amount := amt
          sort_code := sc
          bank_account := ba
          bank_account_name := ban
          building_society_num := bsn }

/-- The loop of `create_payments` (`for i in range(1, len(lines), 29)`),
written on the suffix of the line list that starts at the current index:
while the suffix is nonempty a record is built from it, then 29 lines are
skipped.  `fuel` is an upper bound on the number of iterations (the caller
passes the line count), present only so the recursion is structural. -/
def createPaymentsAux (systime : String) : ℕ → List String → Option (List Payment)
  | _, [] => some []
  | 0, _ :: _ => none
  | fuel + 1, l@(_ :: _) => do
      let p ← mkBlockPayment systime l
      let rest ← createPaymentsAux systime fuel (l.drop 29)
      some (p :: rest)

/-- The source's `create_payments`: one `Payment` per 29-line record block,
starting at line index 1 (line 0 is the header). -/
def create_payments (systime : String) (lines : List String) : Option (List Payment) :=
  createPaymentsAux systime lines.length (lines.drop 1)

/-- The reference store: an association from identity 4-tuples to the
store's assigned references, in insertion order. -/
abbrev Store := List (SqlFields × ℕ)

/-- Reference assigned to `k` by the store, when present (first match). -/
def lookupRef : Store → SqlFields → Option ℕ
  | [], _ => none
  | (k, r) :: s, key => if k = key then some r else lookupRef s key

/-- Modelled from the spec: the idempotent "insert if absent" operation of
the reference store (the source's `insert_query.sql`, which is not among the
sources, executed against the external SQL database): an entry keyed by the
identity 4-tuple is created only when none exists, and a fresh entry gets a
reference distinct from every existing one (here: the store size). -/
def insertIfAbsent (s : Store) (k : SqlFields) : Store :=
  match lookupRef s k with
  | some _ => s
  | none => s ++ [(k, List.length s)]

/-- Modelled from the spec: the source's `query_payments` with the external
database (and the missing `sql/insert_query.sql` / `sql/select_query.sql`)
replaced by the spec's reference store: for each payment, insert-if-absent
on its `get_sql_fields` key, then a point lookup, and the returned reference
is written onto the record's `account_ref`, re-wrapped in double quotes.
Returns the final store and the updated records. -/
def query_payments (store : Store) : List Payment → Store × List Payment
  | [] => (store, [])
  | p :: ps =>
      let s1 := insertIfAbsent store p.get_sql_fields
      let r := (lookupRef s1 p.get_sql_fields).getD 0
      let p1 : Payment := { p with account_ref := "\"" ++ Nat.repr r ++ "\"" }
      ((query_payments s1 ps).1, p1 :: (query_payments s1 ps).2)

/-- One step of the loop of `group_payments`
(`groups.setdefault(payment.account_ref, []).append(payment)`): the payment
is appended to the entry keyed by its `account_ref`, a fresh entry being
created at the end when the key is new (Python dicts keep insertion order
and hold each key once). -/
def addToGroups : List (String × List Payment) → Payment → List (String × List Payment)
  | [], p => [(p.account_ref, [p])]
  | g :: gs, p =>
      if g.1 = p.account_ref then (g.1, g.2 ++ [p]) :: gs
      else g :: addToGroups gs p

/-- The source's `group_payments`: records grouped by `account_ref`, group
keys in first-seen order. -/
def group_payments (payments : List Payment) : List (String × List Payment) :=
  payments.foldl addToGroups []

/-- The amount-summing loop of `sum_payments`: starting from `total = 0`,
each member's amount is put through `float(payment.amount[1:-2])` and added
with binary64 float addition; `none` when a parse fails (Python
`ValueError`) or the model's float range is left. -/
def floatSumAmounts : (ℤ × ℤ) → List Payment → Option (ℤ × ℤ)
  | t, [] => some t
  | t, p :: ps => do
      let v ← pyFloat (pySlice1m2 p.amount)
      let t1 ← floatAdd t v
      floatSumAmounts t1 ps

/-- The `Payment(...)` call of `sum_payments`: a fresh record built from the
defaults, the eleven listed fields copied from the group's first member
except that `amount` is the formatted total. -/
def summedPayment (systime : String) (p0 : Payment) (amt : String) : Payment :=
  { defaultPayment systime with
      batch_run_id := p0.batch_run_id
      posting_ref := p0.posting_ref
      account_ref := p0.account_ref
      payee_name := p0.payee_name
      payee_address := p0.payee_address
      claim_ref := p0.claim_ref
      amount := amt
      sort_code := p0.sort_code
      bank_account := p0.bank_account
      bank_account_name := p0.bank_account_name
      building_society_num := p0.building_society_num }

/-- One iteration of `sum_payments` over a single group: the amounts are
float-summed, the total is formatted with `'"{0:.2f}"'.format(total)`, and
the new record is built from the group's first member (`payments[0]`;
`none` on an empty member list, where Python would raise `IndexError`). -/
def sumGroup (systime : String) (g : String × List Payment) : Option Payment :=
  match g.2 with
  | [] => none
  | p0 :: _ => do
      let t ← floatSumAmounts (0, 0) g.2
      some (summedPayment systime p0 ("\"" ++ fmt2 t ++ "\""))

/-- The source's `sum_payments`: one aggregated record per group, in group
order. -/
def sum_payments (systime : String) : List (String × List Payment) → Option (List Payment)
  | [] => some []
  | g :: gs => do
      let p ← sumGroup systime g
      let rest ← sum_payments systime gs
      some (p :: rest)

/-- Python `s.replace(pat, rep)` for a nonempty pattern: every
non-overlapping occurrence replaced, scanning left to right.  `fuel` bounds
the scan (the caller passes the string length). -/
def strReplaceAux (pat rep : List Char) : ℕ → List Char → List Char
  | 0, _ => []
  | _ + 1, [] => []
  | f + 1, c :: rest =>
      if pat ≠ [] ∧ pat.isPrefixOf (c :: rest) then
        rep ++ strReplaceAux pat rep f ((c :: rest).drop pat.length)
      else c :: strReplaceAux pat rep f rest

/-- Python `s.replace(pat, rep)` (nonempty `pat`). -/
def strReplace (s pat rep : String) : String :=
  ⟨strReplaceAux pat.data rep.data s.data.length s.data⟩

/-- The source's `write_payments`, with the file system modelled as values:
`origLines` stands for the contents of the file at `path`, `fGlobal` for the
module global `f` the function reads (equal to `path` at the only call
site), and `writetime` for the global `WRITETIME`.  The result is the path
actually written to (`f.replace('\\data', '\\new')` — the source's
"delete after testing" leftover), the lines written (header, then every
field of every record in `__dict__` order) and the returned success string
(`count` equals the record count, since the loop increments it once per
record); `none` when the original file has no lines (Python `IndexError` on
reading the header).  The backup copy, the `already_checked.log` append and
the `payments.log` append are file-system effects outside this model. -/
def write_payments (fGlobal writetime path : String) (origLines : List String)
    (summed : List Payment) : Option (String × List String × String) :=
  match origLines.head? with
  | none => none
  | some header =>
      some (strReplace fGlobal "\\data" "\\new",
            header :: (summed.map paymentFields).flatten,
            writetime ++ " - Successfully written " ++ Nat.repr summed.length ++ "/"
              ++ Nat.repr summed.length ++ " payments to " ++ path ++ "\n")

/-- Follows the spec's words ("ignoring surrounding quote characters and
trailing whitespace"): trailing whitespace is removed, then a surrounding
pair of double quotes, when present. -/
def stripQuotesWs (s : String) : String :=
  let l := (s.data.reverse.dropWhile isPyWs).reverse
  if l.head? = some '"' ∧ l.getLast? = some '"' ∧ 2 ≤ l.length then
    ⟨(l.drop 1).dropLast⟩
  else ⟨l⟩

/-- Exact addition of two decimal fixed-point values `(mantissa, scale)`,
over the larger scale. -/
def decAdd (x y : ℤ × ℕ) : ℤ × ℕ :=
  let K := max x.2 y.2
  (x.1 * 10 ^ (K - x.2) + y.1 * 10 ^ (K - y.2), K)

/-- Follows the spec's words ("sum with exact decimal/fixed-point
semantics"): the exact decimal value `(mantissa, scale)` rounded to a whole
number of cents, ties to even (the rounding of Python's `Decimal`
`quantize`), printed with two decimal places. -/
def decFmt2 (d : ℤ × ℕ) : String :=
  centsString (d.1 < 0) (rneRound (d.1.natAbs * 100) (10 ^ d.2))

/-- Follows the spec's words ("parse each member's amount field (strip
quotes, parse as decimal), sum with exact decimal/fixed-point semantics ...
and format the result as a two-decimal-place quoted string"): the exact
decimal total of a group's amounts, formatted to two decimal places and
quoted. -/
def specDecimalTotal (amounts : List String) : Option String := do
  let ds ← amounts.mapM (fun s => parseDecCore (stripQuotesWs s).data)
  some ("\"" ++ decFmt2 (ds.foldl decAdd (0, 0)) ++ "\"")

/-- The binary64 value `v = (M, e)` (value `M * 2 ^ e`) denotes exactly the
decimal fixed-point value `d = (a, k)` (value `a / 10 ^ k`): the
cross-multiplied integer equation between the two fractions. -/
def dyadicEqDec (v : ℤ × ℤ) (d : ℤ × ℕ) : Prop :=
  v.1 * 2 ^ (max v.2 0).toNat * (10 : ℤ) ^ d.2 = d.1 * 2 ^ (max (-v.2) 0).toNat

instance dyadicEqDecDecidable (v : ℤ × ℤ) (d : ℤ × ℕ) :
    Decidable (dyadicEqDec v d) :=
  inferInstanceAs (Decidable (_ = _))

/-- The eighteen fields of `p` that `sum_payments` never copies from a group
member (everything outside the eleven listed in its constructor call) hold
the constructor's default values. -/
def uncopiedDefaults (systime : String) (p : Payment) : Prop :=
  p.interface_source = (defaultPayment systime).interface_source ∧
  p.payee_type = (defaultPayment systime).payee_type ∧
  p.claimant_name = (defaultPayment systime).claimant_name ∧
  p.claimant_adddress = (defaultPayment systime).claimant_adddress ∧
  p.posting_start_date = (defaultPayment systime).posting_start_date ∧
  p.posting_end_date = (defaultPayment systime).posting_end_date ∧
  p.payment_method = (defaultPayment systime).payment_method ∧
  p.creditor_account_ref = (defaultPayment systime).creditor_account_ref ∧
  p.post_office_name = (defaultPayment systime).post_office_name ∧
  p.post_office_address = (defaultPayment systime).post_office_address ∧
  p.collection_flag = (defaultPayment systime).collection_flag ∧
  p.document_num = (defaultPayment systime).document_num ∧
  p.document_type = (defaultPayment systime).document_type ∧
  p.replacement_flag = (defaultPayment systime).replacement_flag ∧
  p.effective_date = (defaultPayment systime).effective_date ∧
  p.blank_one = (defaultPayment systime).blank_one ∧
  p.blank_two = (defaultPayment systime).blank_two ∧
  p.document_date = (defaultPayment systime).document_date

/-- Record `o` agrees with record `p` on every field other than `amount`. -/
def agreesExceptAmount (o p : Payment) : Prop :=
  o.interface_source = p.interface_source ∧
  o.batch_run_id = p.batch_run_id ∧
  o.posting_ref = p.posting_ref ∧
  o.account_ref = p.account_ref ∧
  o.payee_type = p.payee_type ∧
  o.payee_name = p.payee_name ∧
  o.payee_address = p.payee_address ∧
  o.claim_ref = p.claim_ref ∧
  o.claimant_name = p.claimant_name ∧
  o.claimant_adddress = p.claimant_adddress ∧
  o.posting_start_date = p.posting_start_date ∧
  o.posting_end_date = p.posting_end_date ∧
  o.payment_method = p.payment_method ∧
  o.creditor_account_ref = p.creditor_account_ref ∧
  o.sort_code = p.sort_code ∧
  o.bank_account = p.bank_account ∧
  o.bank_account_name = p.bank_account_name ∧
  o.building_society_num = p.building_society_num ∧
  o.post_office_name = p.post_office_name ∧
  o.post_office_address = p.post_office_address ∧
  o.collection_flag = p.collection_flag ∧
  o.document_num = p.document_num ∧
  o.document_type = p.document_type ∧
  o.replacement_flag = p.replacement_flag ∧
  o.effective_date = p.effective_date ∧
  o.blank_one = p.blank_one ∧
  o.blank_two = p.blank_two ∧
  o.document_date = p.document_date

/-- A record with the given amount field and every other field at the
constructor defaults (`SYSTIME` fixed to a sample date). -/
def sampleAmtPayment (amt : String) : Payment :=
  { defaultPayment "01-JAN-2020" with amount := amt }

/-- A record whose four identity fields are quoted with no trailing
whitespace. -/
def idPaymentNoWs : Payment :=
  { defaultPayment "01-JAN-2020" with
      bank_account := "\"A\"", sort_code := "\"A\"",
      payee_name := "\"A\"", building_society_num := "\"A\"" }

/-- A record whose four identity fields are quoted with exactly one trailing
space — identical to `idPaymentNoWs` once quotes and trailing whitespace are
ignored. -/
def idPaymentOneWs : Payment :=
  { defaultPayment "01-JAN-2020" with
      bank_account := "\"A\" ", sort_code := "\"A\" ",
      payee_name := "\"A\" ", building_society_num := "\"A\" " }

/-- A record whose four identity fields are quoted values without trailing
whitespace, for evaluating `get_sql_fields`. -/
def idPaymentLong : Payment :=
  { defaultPayment "01-JAN-2020" with
      bank_account := "\"12345678\"", sort_code := "\"123456\"",
      payee_name := "\"JOHN SMITH\"", building_society_num := "\"0\"" }

/-- C1, counterexample: on the group whose single member has amount field
`"2.675" ` (quoted, one trailing space), `sum_payments` — which sums with
binary64 floats — produces the total `"2.67"`, while the exact decimal sum
of the spec formats to `"2.68"`; the two formatted totals differ, so the
total computed by `sum_payments` is not the exact decimal sum formatted to
two places. -/
theorem C1_float_total_counterexample :
    (sum_payments "01-JAN-2020" [("\"7\"", [sampleAmtPayment "\"2.675\" "])]).map
        (List.map Payment.amount) = some ["\"2.67\""] ∧
    specDecimalTotal ["\"2.675\" "] = some "\"2.68\"" ∧
    ("\"2.67\"" : String) ≠ "\"2.68\"" := by
  exact ⟨by decide, by decide, by decide⟩

/-- C5, counterexample: on an input of one header line followed by a 5-line
remainder (no complete 29-line block), `create_payments` does not silently
drop the short trailing block and return the empty record list — it fails
(Python `IndexError` when the block's offsets are read past the end,
modelled `none`). -/
theorem C5_short_block_counterexample :
    create_payments "01-JAN-2020" ["header", "l1", "l2", "l3", "l4", "l5"] = none ∧
    (none : Option (List Payment)) ≠ some [] := by
  exact ⟨by decide, by decide⟩

/-- C6, counterexample: the singleton group whose member has amount field
`"1.23"` (quoted, no trailing whitespace) is not summed to its own amount:
the output amount is `"1.20"` (the slice `[1:-2]` chops the last digit
before the float parse), so summing a singleton is not the identity on the
amount field. -/
theorem C6_singleton_counterexample :
    (sampleAmtPayment "\"1.23\"").amount = "\"1.23\"" ∧
    (sum_payments "01-JAN-2020" [("\"7\"", [sampleAmtPayment "\"1.23\""])]).map
        (List.map Payment.amount) = some ["\"1.20\""] ∧
    ("\"1.20\"" : String) ≠ "\"1.23\"" := by
  exact ⟨by decide, by decide, by decide⟩

/-- C3: evaluated at a record whose four identity fields are quoted values
with no trailing whitespace, `get_sql_fields` does not return the unquoted
whitespace-stripped values: the slice `[1:-2]` also removes the last
character of each value (`"12345678"` becomes `1234567`, `"JOHN SMITH"`
becomes `JOHN SMIT`, `"0"` becomes the empty string), contradicting the
function's own docstring. -/
theorem C3_get_sql_fields_eval :
    idPaymentLong.bank_account = "\"12345678\"" ∧
    Payment.get_sql_fields idPaymentLong =
      ⟨"1234567", "12345", "JOHN SMIT", ""⟩ ∧
    ("1234567" : String) ≠ "12345678" ∧
    ("JOHN SMIT" : String) ≠ "JOHN SMITH" := by
  exact ⟨by decide, by decide, by decide, by decide⟩

/-- C2: evaluated on a run over two records whose identity tuples are
identical once surrounding quotes and trailing whitespace are ignored (all
four fields `"A"` versus `"A" `), `query_payments` (with the reference
store modelled from the spec) assigns them different account references
(`"0"` and `"1"` — the slice `[1:-2]` maps the two spellings to the
different keys `(empty)` and `A`), and `group_payments` puts them in two
distinct groups rather than one. -/
theorem C2_identity_grouping_eval :
    stripQuotesWs idPaymentNoWs.bank_account = stripQuotesWs idPaymentOneWs.bank_account ∧
    stripQuotesWs idPaymentNoWs.sort_code = stripQuotesWs idPaymentOneWs.sort_code ∧
    stripQuotesWs idPaymentNoWs.payee_name = stripQuotesWs idPaymentOneWs.payee_name ∧
    stripQuotesWs idPaymentNoWs.building_society_num
      = stripQuotesWs idPaymentOneWs.building_society_num ∧
    (query_payments [] [idPaymentNoWs, idPaymentOneWs]).2.map Payment.account_ref
      = ["\"0\"", "\"1\""] ∧
    ("\"0\"" : String) ≠ "\"1\"" ∧
    (group_payments (query_payments [] [idPaymentNoWs, idPaymentOneWs]).2).length = 2 := by
  exact ⟨by decide, by decide, by decide, by decide, by decide, by decide, by decide⟩

/-- C8: evaluated at a concrete call, `write_payments` writes the original
file's first line verbatim as the header, then every field of the record in
`__dict__` order, one per line, and returns the `written/expected` summary
string — but the path written to is not the designated output path `path`:
it is `path` with `\data` replaced by `\new` (the source's
"delete after testing" leftover), while the summary string still names
`path`. -/
theorem C8_write_payments_eval :
    write_payments ".\\data\\bpy331_20200101_1200.dat" "01-JAN-2020 12:00:00"
        ".\\data\\bpy331_20200101_1200.dat" ["HDR", "x"]
        [sampleAmtPayment "\"2.50\""] =
      some (".\\new\\bpy331_20200101_1200.dat",
            "HDR" :: paymentFields (sampleAmtPayment "\"2.50\""),
            "01-JAN-2020 12:00:00 - Successfully written 1/1 payments to .\\data\\bpy331_20200101_1200.dat\n") ∧
    (".\\new\\bpy331_20200101_1200.dat" : String) ≠ ".\\data\\bpy331_20200101_1200.dat" := by
  exact ⟨by decide, by decide⟩

/-- C10: on a header-only input (a list of exactly one line),
`create_payments` returns the empty record list, `group_payments` of the
empty list is the empty dictionary, and `sum_payments` of the empty
dictionary is the empty list: the pipeline yields zero aggregate records
without error. -/
theorem C10_header_only_pipeline (systime h : String) :
    create_payments systime [h] = some [] ∧
    group_payments [] = [] ∧
    sum_payments systime [] = some [] :=
  ⟨rfl, rfl, rfl⟩

theorem mkBlockPayment_fields {systime : String} {l : List String} {p : Payment}
    (h : mkBlockPayment systime l = some p) :
    p.batch_run_id = (l.get? 1).getD "" ∧
    p.posting_ref = (l.get? 2).getD "" ∧
    p.payee_address = (l.get? 6).getD "" ∧
    p.claim_ref = (l.get? 7).getD "" ∧
    p.amount = (l.get? 10).getD "" ∧
    p.sort_code = (l.get? 15).getD "" ∧
    p.bank_account = (l.get? 16).getD "" ∧
    p.bank_account_name = (l.get? 17).getD "" ∧
    p.payee_name = (l.get? 17).getD "" ∧
    p.building_society_num = (l.get? 18).getD "" ∧
    p.account_ref = (defaultPayment systime).account_ref ∧
    uncopiedDefaults systime p := by
  unfold mkBlockPayment at h
  simp only [bind, Option.bind_eq_some, Option.some.injEq] at h
  obtain ⟨b1, h1, b2, h2, b3, h3, b4, h4, b5, h5, b6, h6, b7, h7, b8, h8, b9, h9,
          b10, h10, hp⟩ := h
  subst hp
  have hbb : b3 = b9 := by rw [h3] at h9; exact Option.some_inj.mp h9
  subst hbb
  rw [h1, h2, h3, h4, h5, h6, h7, h8, h10]
  exact ⟨rfl, rfl, rfl, rfl, rfl, rfl, rfl, rfl, rfl, rfl, rfl,
         rfl, rfl, rfl, rfl, rfl, rfl, rfl, rfl, rfl, rfl, rfl, rfl, rfl,
         rfl, rfl, rfl, rfl, rfl⟩

theorem mkBlockPayment_isSome {systime : String} {l : List String}
    (h : 19 ≤ l.length) : ∃ p, mkBlockPayment systime l = some p := by
  have hg : ∀ i, i ≤ 18 → ∃ s, l.get? i = some s := by
    intro i hi
    have : i < l.length := lt_of_lt_of_le (Nat.lt_succ_of_le hi) h
    exact ⟨l.get ⟨i, this⟩, List.get?_eq_get this⟩
  obtain ⟨s1, e1⟩ := hg 1 (by omega)
  obtain ⟨s2, e2⟩ := hg 2 (by omega)
  obtain ⟨s6, e6⟩ := hg 6 (by omega)
  obtain ⟨s7, e7⟩ := hg 7 (by omega)
  obtain ⟨s10, e10⟩ := hg 10 (by omega)
  obtain ⟨s15, e15⟩ := hg 15 (by omega)
  obtain ⟨s16, e16⟩ := hg 16 (by omega)
  obtain ⟨s17, e17⟩ := hg 17 (by omega)
  obtain ⟨s18, e18⟩ := hg 18 (by omega)
  have hs : (mkBlockPayment systime l).isSome := by
    unfold mkBlockPayment
    rw [e1, e2, e6, e7, e10, e15, e16, e17, e18]
    rfl
  exact Option.isSome_iff_exists.mp hs

theorem mkBlockPayment_none {systime : String} {l : List String}
    (h : l.length ≤ 18) : mkBlockPayment systime l = none := by
  cases hm : mkBlockPayment systime l with
  | none => rfl
  | some p =>
      exfalso
      unfold mkBlockPayment at hm
      simp only [bind, Option.bind_eq_some, Option.some.injEq] at hm
      obtain ⟨b1, h1, b2, h2, b3, h3, b4, h4, b5, h5, b6, h6, b7, h7, b8, h8,
              b9, h9, b10, h10, hp⟩ := hm
      rw [List.get?_eq_none.mpr h] at h10
      exact Option.noConfusion h10

theorem createPaymentsAux_full (systime : String) :
    ∀ (N fuel : ℕ) (body : List String), N ≤ fuel → body.length = 29 * N →
    ∃ ps, createPaymentsAux systime fuel body = some ps ∧ ps.length = N ∧
      ∀ j p, ps.get? j = some p →
        mkBlockPayment systime (body.drop (29 * j)) = some p := by
  intro N
  induction N with
  | zero =>
      intro fuel body _ hlen
      have hb : body = [] := List.length_eq_zero.mp (by omega)
      subst hb
      refine ⟨[], ?_, rfl, ?_⟩
      · cases fuel <;> rfl
      · intro j p hj
        simp at hj
  | succ n ih =>
      intro fuel body hf hlen
      obtain ⟨f, rfl⟩ : ∃ f, fuel = f + 1 := ⟨fuel - 1, by omega⟩
      obtain ⟨b, body', rfl⟩ : ∃ b body', body = b :: body' := by
        cases body with
        | nil => exfalso; simp only [List.length_nil] at hlen; omega
        | cons b body' => exact ⟨b, body', rfl⟩
      have hlen2 : body'.length + 1 = 29 * (n + 1) := by simpa using hlen
      obtain ⟨p1, hp1⟩ :=
        @mkBlockPayment_isSome systime (b :: body') (by simp; omega)
      have hdrop : ((b :: body').drop 29).length = 29 * n := by
        simp [List.length_drop]
        omega
      obtain ⟨ps', hps', hlen', hchar⟩ := ih f ((b :: body').drop 29) (by omega) hdrop
      refine ⟨p1 :: ps', ?_, by simp [hlen'], ?_⟩
      · show createPaymentsAux systime (f + 1) (b :: body') = some (p1 :: ps')
        unfold createPaymentsAux
        rw [hp1]
        simp only [bind, Option.bind]
        rw [hps']
      · intro j p hj
        cases j with
        | zero =>
            simp only [List.get?] at hj
            obtain rfl := Option.some_inj.mp hj
            simpa using hp1
        | succ j' =>
            simp only [List.get?] at hj
            have hstep := hchar j' p hj
            have hgoal : (b :: body').drop (29 * (j' + 1))
                = ((b :: body').drop 29).drop (29 * j') := by
              rw [List.drop_drop]
              congr 1
              ring
            rw [hgoal]
            exact hstep

theorem createPaymentsAux_remainder (systime : String) :
    ∀ (N fuel m : ℕ) (body : List String),
    N + 1 ≤ fuel → 1 ≤ m → m ≤ 28 → body.length = 29 * N + m →
    (m ≤ 18 → createPaymentsAux systime fuel body = none) ∧
    (19 ≤ m → ∃ ps, createPaymentsAux systime fuel body = some ps ∧
        ps.length = N + 1) := by
  intro N
  induction N with
  | zero =>
      intro fuel m body hf h1 h28 hlen
      obtain ⟨f, rfl⟩ : ∃ f, fuel = f + 1 := ⟨fuel - 1, by omega⟩
      obtain ⟨b, body', rfl⟩ : ∃ b body', body = b :: body' := by
        cases body with
        | nil => exfalso; simp only [List.length_nil] at hlen; omega
        | cons b body' => exact ⟨b, body', rfl⟩
      have hlen2 : body'.length + 1 = m := by simpa using hlen
      constructor
      · intro h18
        have hnone : mkBlockPayment systime (b :: body') = none :=
          mkBlockPayment_none (by simp; omega)
        unfold createPaymentsAux
        rw [hnone]
        rfl
      · intro h19
        obtain ⟨p1, hp1⟩ :=
          @mkBlockPayment_isSome systime (b :: body') (by simp; omega)
        have hdrop : (b :: body').drop 29 = [] := by
          apply List.eq_nil_of_length_eq_zero
          simp [List.length_drop]
          omega
        refine ⟨[p1], ?_, rfl⟩
        unfold createPaymentsAux
        rw [hp1]
        simp only [bind, Option.bind]
        rw [hdrop]
        cases f <;> rfl
  | succ n ih =>
      intro fuel m body hf h1 h28 hlen
      obtain ⟨f, rfl⟩ : ∃ f, fuel = f + 1 := ⟨fuel - 1, by omega⟩
      obtain ⟨b, body', rfl⟩ : ∃ b body', body = b :: body' := by
        cases body with
        | nil => exfalso; simp only [List.length_nil] at hlen; omega
        | cons b body' => exact ⟨b, body', rfl⟩
      have hlen2 : body'.length + 1 = 29 * (n + 1) + m := by simpa using hlen
      obtain ⟨p1, hp1⟩ :=
        @mkBlockPayment_isSome systime (b :: body') (by simp; omega)
      have hdrop : ((b :: body').drop 29).length = 29 * n + m := by
        simp [List.length_drop]
        omega
      obtain ⟨ihn, ihs⟩ := ih f m ((b :: body').drop 29) (by omega) h1 h28 hdrop
      constructor
      · intro h18
        unfold createPaymentsAux
        rw [hp1]
        simp only [bind, Option.bind]
        rw [ihn h18]
      · intro h19
        obtain ⟨ps', hps', hlen'⟩ := ihs h19
        refine ⟨p1 :: ps', ?_, by simp [hlen']⟩
        unfold createPaymentsAux
        rw [hp1]
        simp only [bind, Option.bind]
        rw [hps']

/-- A 30-line input: one header line and one full 29-line block whose
amount line (block-relative offset 10) is `"10.50" `. -/
def sampleLines30 : List String :=
  ["HDR"] ++ List.replicate 10 "\"F\" " ++ ["\"10.50\" "] ++ List.replicate 18 "\"F\" "

/-- C4: on an input of one header line followed by exactly `N` full 29-line
blocks, `create_payments` returns exactly `N` records, and the `j`-th record
takes its fields from the `j`-th block at the block-relative offsets 1
(`batch_run_id`), 2 (`posting_ref`), 6 (`payee_address`), 7 (`claim_ref`),
10 (`amount`), 15 (`sort_code`), 16 (`bank_account`), 17 (both
`bank_account_name` and `payee_name`) and 18 (`building_society_num`), with
every unlisted field at the constructor's documented default. -/
theorem C4_parse_full_blocks (systime : String) (N : ℕ) (lines : List String)
    (h : lines.length = 1 + 29 * N) :
    ∃ ps, create_payments systime lines = some ps ∧ ps.length = N ∧
      ∀ j p, ps.get? j = some p →
        p.batch_run_id = ((lines.drop (1 + 29 * j)).get? 1).getD "" ∧
        p.posting_ref = ((lines.drop (1 + 29 * j)).get? 2).getD "" ∧
        p.payee_address = ((lines.drop (1 + 29 * j)).get? 6).getD "" ∧
        p.claim_ref = ((lines.drop (1 + 29 * j)).get? 7).getD "" ∧
        p.amount = ((lines.drop (1 + 29 * j)).get? 10).getD "" ∧
        p.sort_code = ((lines.drop (1 + 29 * j)).get? 15).getD "" ∧
        p.bank_account = ((lines.drop (1 + 29 * j)).get? 16).getD "" ∧
        p.bank_account_name = ((lines.drop (1 + 29 * j)).get? 17).getD "" ∧
        p.payee_name = ((lines.drop (1 + 29 * j)).get? 17).getD "" ∧
        p.building_society_num = ((lines.drop (1 + 29 * j)).get? 18).getD "" ∧
        p.account_ref = (defaultPayment systime).account_ref ∧
        uncopiedDefaults systime p := by
  have hbody : (lines.drop 1).length = 29 * N := by
    simp [List.length_drop]
    omega
  obtain ⟨ps, hps, hlen, hchar⟩ :=
    createPaymentsAux_full systime N lines.length (lines.drop 1) (by omega) hbody
  refine ⟨ps, hps, hlen, ?_⟩
  intro j p hj
  have hmk := hchar j p hj
  have hdd : (lines.drop 1).drop (29 * j) = lines.drop (1 + 29 * j) := by
    rw [List.drop_drop]
  rw [hdd] at hmk
  exact mkBlockPayment_fields hmk

/-- Witness for C4 at a concrete input: one header plus one full block. -/
theorem C4_parse_full_blocks_witness :
    sampleLines30.length = 1 + 29 * 1 ∧
    ∃ ps, create_payments "01-JAN-2020" sampleLines30 = some ps ∧ ps.length = 1 ∧
      ∀ j p, ps.get? j = some p →
        p.batch_run_id = ((sampleLines30.drop (1 + 29 * j)).get? 1).getD "" ∧
        p.posting_ref = ((sampleLines30.drop (1 + 29 * j)).get? 2).getD "" ∧
        p.payee_address = ((sampleLines30.drop (1 + 29 * j)).get? 6).getD "" ∧
        p.claim_ref = ((sampleLines30.drop (1 + 29 * j)).get? 7).getD "" ∧
        p.amount = ((sampleLines30.drop (1 + 29 * j)).get? 10).getD "" ∧
        p.sort_code = ((sampleLines30.drop (1 + 29 * j)).get? 15).getD "" ∧
        p.bank_account = ((sampleLines30.drop (1 + 29 * j)).get? 16).getD "" ∧
        p.bank_account_name = ((sampleLines30.drop (1 + 29 * j)).get? 17).getD "" ∧
        p.payee_name = ((sampleLines30.drop (1 + 29 * j)).get? 17).getD "" ∧
        p.building_society_num = ((sampleLines30.drop (1 + 29 * j)).get? 18).getD "" ∧
        p.account_ref = (defaultPayment "01-JAN-2020").account_ref ∧
        uncopiedDefaults "01-JAN-2020" p :=
  ⟨by decide, C4_parse_full_blocks "01-JAN-2020" 1 sampleLines30 (by decide)⟩

/-- C5, amended: `create_payments` does not uniformly drop a short trailing
block.  On an input of one header line, `N` full 29-line blocks and a
remainder of `m` lines (`1 ≤ m ≤ 28`): when `m ≤ 18` the run fails (Python
`IndexError`, modelled `none`), because the partial block is entered and an
offset up to 18 is read past the end; when `19 ≤ m` an extra record is
built from the partial block (only offsets up to 18 are ever read), giving
`N + 1` records rather than `N`. -/
theorem C5_remainder_policy (systime : String) (N m : ℕ) (lines : List String)
    (h : lines.length = 1 + 29 * N + m) (h1 : 1 ≤ m) (h2 : m ≤ 28) :
    (m ≤ 18 → create_payments systime lines = none) ∧
    (19 ≤ m → ∃ ps, create_payments systime lines = some ps ∧
        ps.length = N + 1) := by
  have hbody : (lines.drop 1).length = 29 * N + m := by
    simp [List.length_drop]
    omega
  exact createPaymentsAux_remainder systime N lines.length m (lines.drop 1)
    (by omega) h1 h2 hbody

/-- Witness for C5 at a concrete input: a header and a 20-line remainder,
from which an extra record is built. -/
theorem C5_remainder_policy_witness :
    (20 ≤ 18 → create_payments "01-JAN-2020" ("HDR" :: List.replicate 20 "x") = none) ∧
    (19 ≤ 20 → ∃ ps,
        create_payments "01-JAN-2020" ("HDR" :: List.replicate 20 "x") = some ps ∧
        ps.length = 0 + 1) :=
  C5_remainder_policy "01-JAN-2020" 0 20 ("HDR" :: List.replicate 20 "x")
    (by decide) (by decide) (by decide)

theorem sumGroup_some {systime : String} {g : String × List Payment} {o : Payment}
    (h : sumGroup systime g = some o) :
    ∃ p0 t, g.2.head? = some p0 ∧ floatSumAmounts (0, 0) g.2 = some t ∧
      o = summedPayment systime p0 ("\"" ++ fmt2 t ++ "\"") := by
  unfold sumGroup at h
  cases hg : g.2 with
  | nil => rw [hg] at h; exact Option.noConfusion h
  | cons p0 tl =>
      rw [hg] at h
      simp only [bind, Option.bind_eq_some, Option.some.injEq] at h
      obtain ⟨t, ht, ho⟩ := h
      exact ⟨p0, t, rfl, ht, ho.symm⟩

theorem sum_payments_some {systime : String} :
    ∀ {gs : List (String × List Payment)} {outs : List Payment},
    sum_payments systime gs = some outs →
    outs.length = gs.length ∧
      ∀ pr ∈ gs.zip outs, sumGroup systime pr.1 = some pr.2 := by
  intro gs
  induction gs with
  | nil =>
      intro outs h
      obtain rfl : ([] : List Payment) = outs := Option.some_inj.mp h
      exact ⟨rfl, by intro pr hpr; simp at hpr⟩
  | cons g gs ih =>
      intro outs h
      unfold sum_payments at h
      simp only [bind, Option.bind_eq_some, Option.some.injEq] at h
      obtain ⟨o, ho, rest, hrest, houts⟩ := h
      obtain ⟨hlen, hmem⟩ := ih hrest
      subst houts
      refine ⟨by simp [hlen], ?_⟩
      intro pr hpr
      rw [List.zip_cons_cons] at hpr
      cases hpr with
      | head => exact ho
      | tail _ htl => exact hmem pr htl

/-- C9: every field of a `sum_payments` output record outside the eleven
explicitly copied ones holds the `Payment` constructor's default value,
whatever values those fields hold in the group's members. -/
theorem C9_uncopied_fields_defaulted (systime : String)
    (groups : List (String × List Payment)) (outs : List Payment)
    (h : sum_payments systime groups = some outs) :
    ∀ o ∈ outs, uncopiedDefaults systime o := by
  induction groups generalizing outs with
  | nil =>
      obtain rfl : ([] : List Payment) = outs := Option.some_inj.mp h
      intro o ho
      simp at ho
  | cons g gs ih =>
      unfold sum_payments at h
      simp only [bind, Option.bind_eq_some, Option.some.injEq] at h
      obtain ⟨o1, ho1, rest, hrest, houts⟩ := h
      subst houts
      intro o ho
      cases ho with
      | head =>
          obtain ⟨p0, t, _, _, rfl⟩ := sumGroup_some ho1
          exact ⟨rfl, rfl, rfl, rfl, rfl, rfl, rfl, rfl, rfl, rfl, rfl, rfl,
                 rfl, rfl, rfl, rfl, rfl, rfl⟩
      | tail _ htl => exact ih rest hrest o htl

/-- A record holding a non-default value in the uncopied
`post_office_name` field. -/
def oddFieldPayment : Payment :=
  { sampleAmtPayment "\"3.00\" " with post_office_name := "\"ODD\"" }

/-- Witness for C9: the output record summed from a singleton group whose
member holds a non-default `post_office_name` is defaulted there all the
same. -/
theorem C9_uncopied_fields_defaulted_witness :
    uncopiedDefaults "01-JAN-2020"
      (((sum_payments "01-JAN-2020" [("\"7\"", [oddFieldPayment])]).getD
        []).headD (defaultPayment "01-JAN-2020")) :=
  C9_uncopied_fields_defaulted "01-JAN-2020" [("\"7\"", [oddFieldPayment])]
    ((sum_payments "01-JAN-2020" [("\"7\"", [oddFieldPayment])]).getD [])
    (by decide)
    (((sum_payments "01-JAN-2020" [("\"7\"", [oddFieldPayment])]).getD
      []).headD (defaultPayment "01-JAN-2020"))
    (by decide)

theorem addToGroups_mem :
    ∀ (gs : List (String × List Payment)) (p : Payment) (gr : String × List Payment),
    gr ∈ addToGroups gs p → ∀ q ∈ gr.2, (∃ g ∈ gs, q ∈ g.2) ∨ q = p := by
  intro gs
  induction gs with
  | nil =>
      intro p gr hgr q hq
      simp only [addToGroups, List.mem_singleton] at hgr
      subst hgr
      simp only [List.mem_singleton] at hq
      exact Or.inr hq
  | cons g gs ih =>
      intro p gr hgr q hq
      unfold addToGroups at hgr
      by_cases hk : g.1 = p.account_ref
      · rw [if_pos hk] at hgr
        cases hgr with
        | head =>
            simp only [List.mem_append, List.mem_singleton] at hq
            cases hq with
            | inl hq2 => exact Or.inl ⟨g, List.mem_cons_self g gs, hq2⟩
            | inr hq2 => exact Or.inr hq2
        | tail _ htl => exact Or.inl ⟨gr, List.mem_cons_of_mem g htl, hq⟩
      · rw [if_neg hk] at hgr
        cases hgr with
        | head => exact Or.inl ⟨g, List.mem_cons_self g gs, hq⟩
        | tail _ htl =>
            cases ih p gr htl q hq with
            | inl hex =>
                obtain ⟨g2, hg2, hq2⟩ := hex
                exact Or.inl ⟨g2, List.mem_cons_of_mem g hg2, hq2⟩
            | inr heq => exact Or.inr heq

theorem foldl_addToGroups_mem :
    ∀ (ps : List Payment) (gs : List (String × List Payment))
      (gr : String × List Payment),
    gr ∈ ps.foldl addToGroups gs → ∀ q ∈ gr.2,
      (∃ g ∈ gs, q ∈ g.2) ∨ q ∈ ps := by
  intro ps
  induction ps with
  | nil =>
      intro gs gr hgr q hq
      exact Or.inl ⟨gr, hgr, hq⟩
  | cons p ps ih =>
      intro gs gr hgr q hq
      rw [List.foldl_cons] at hgr
      cases ih (addToGroups gs p) gr hgr q hq with
      | inl hex =>
          obtain ⟨g2, hg2, hq2⟩ := hex
          cases addToGroups_mem gs p g2 hg2 q hq2 with
          | inl hex2 => exact Or.inl hex2
          | inr heq => exact Or.inr (heq ▸ List.mem_cons_self p ps)
      | inr hmem => exact Or.inr (List.mem_cons_of_mem p hmem)

theorem group_payments_mem {rs : List Payment} {gr : String × List Payment}
    (hgr : gr ∈ group_payments rs) : ∀ q ∈ gr.2, q ∈ rs := by
  intro q hq
  cases foldl_addToGroups_mem rs [] gr hgr q hq with
  | inl hex => obtain ⟨g, hg, _⟩ := hex; simp at hg
  | inr hmem => exact hmem

theorem query_payments_mem :
    ∀ (ps : List Payment) (store : Store) (q : Payment),
    q ∈ (query_payments store ps).2 →
    ∃ p ∈ ps, ∃ r, q = { p with account_ref := r } := by
  intro ps
  induction ps with
  | nil =>
      intro store q hq
      simp [query_payments] at hq
  | cons p ps ih =>
      intro store q hq
      unfold query_payments at hq
      cases hq with
      | head => exact ⟨p, List.mem_cons_self p ps, _, rfl⟩
      | tail _ htl =>
          obtain ⟨p2, hp2, r, hr⟩ := ih _ q htl
          exact ⟨p2, List.mem_cons_of_mem p hp2, r, hr⟩

theorem createPaymentsAux_defaults (systime : String) :
    ∀ (fuel : ℕ) (body : List String) (ps : List Payment),
    createPaymentsAux systime fuel body = some ps →
    ∀ p ∈ ps, p.account_ref = (defaultPayment systime).account_ref ∧
      uncopiedDefaults systime p := by
  intro fuel
  induction fuel with
  | zero =>
      intro body ps h p hp
      cases body with
      | nil =>
          obtain rfl : ([] : List Payment) = ps := Option.some_inj.mp h
          simp at hp
      | cons b body' => exact Option.noConfusion h
  | succ f ih =>
      intro body ps h p hp
      cases body with
      | nil =>
          obtain rfl : ([] : List Payment) = ps := Option.some_inj.mp h
          simp at hp
      | cons b body' =>
          unfold createPaymentsAux at h
          simp only [bind, Option.bind_eq_some, Option.some.injEq] at h
          obtain ⟨p1, hp1, rest, hrest, hps⟩ := h
          subst hps
          cases hp with
          | head =>
              have hf := mkBlockPayment_fields hp1
              exact ⟨hf.2.2.2.2.2.2.2.2.2.2.1, hf.2.2.2.2.2.2.2.2.2.2.2⟩
          | tail _ htl => exact ih (List.drop 29 (b :: body')) rest hrest p htl

theorem create_payments_defaults {systime : String} {lines : List String}
    {ps : List Payment} (h : create_payments systime lines = some ps) :
    ∀ p ∈ ps, p.account_ref = (defaultPayment systime).account_ref ∧
      uncopiedDefaults systime p :=
  createPaymentsAux_defaults systime lines.length (lines.drop 1) ps h

/-- C7: in a run of the pipeline (records built by `create_payments`,
resolved by `query_payments`, grouped by `group_payments`), every record
output by `sum_payments` agrees with the first record of its group on every
field other than `amount`. -/
theorem C7_output_matches_first (systime : String) (store : Store)
    (lines : List String) (payments outs : List Payment)
    (hc : create_payments systime lines = some payments)
    (hs : sum_payments systime
        (group_payments (query_payments store payments).2) = some outs) :
    outs.length = (group_payments (query_payments store payments).2).length ∧
    ∀ pr ∈ (group_payments (query_payments store payments).2).zip outs,
      ∀ p0, pr.1.2.head? = some p0 → agreesExceptAmount pr.2 p0 := by
  obtain ⟨hlen, hmem⟩ := sum_payments_some hs
  refine ⟨hlen, ?_⟩
  intro pr hpr p0 hp0
  obtain ⟨p0', t, hh, ht, hout⟩ := sumGroup_some (hmem pr hpr)
  have hpp : p0' = p0 := by
    rw [hp0] at hh
    exact (Option.some_inj.mp hh).symm
  rw [← hpp]
  have hp0in : p0' ∈ pr.1.2 := by
    cases hl : pr.1.2 with
    | nil => rw [hl] at hh; exact Option.noConfusion hh
    | cons a l =>
        rw [hl, List.head?_cons] at hh
        rw [← Option.some_inj.mp hh]
        exact List.mem_cons_self a l
  have hp0mem : p0' ∈ (query_payments store payments).2 :=
    group_payments_mem (List.of_mem_zip hpr).1 p0' hp0in
  obtain ⟨p1, hp1mem, r, rfl⟩ := query_payments_mem payments store p0' hp0mem
  obtain ⟨-, u1, u2, u3, u4, u5, u6, u7, u8, u9, u10, u11, u12, u13, u14, u15,
          u16, u17, u18⟩ := (create_payments_defaults hc) p1 hp1mem
  rw [hout]
  exact ⟨u1.symm, rfl, rfl, rfl, u2.symm, rfl, rfl, rfl, u3.symm, u4.symm,
         u5.symm, u6.symm, u7.symm, u8.symm, rfl, rfl, rfl, rfl, u9.symm,
         u10.symm, u11.symm, u12.symm, u13.symm, u14.symm, u15.symm, u16.symm,
         u17.symm, u18.symm⟩

/-- Witness for C7: the full pipeline run on a one-block input file with an
empty starting store. -/
theorem C7_output_matches_first_witness :
    ((sum_payments "01-JAN-2020" (group_payments (query_payments []
        ((create_payments "01-JAN-2020" sampleLines30).getD [])).2)).getD []).length
      = (group_payments (query_payments []
        ((create_payments "01-JAN-2020" sampleLines30).getD [])).2).length ∧
    ∀ pr ∈ (group_payments (query_payments []
        ((create_payments "01-JAN-2020" sampleLines30).getD [])).2).zip
        ((sum_payments "01-JAN-2020" (group_payments (query_payments []
        ((create_payments "01-JAN-2020" sampleLines30).getD [])).2)).getD []),
      ∀ p0, pr.1.2.head? = some p0 → agreesExceptAmount pr.2 p0 :=
  C7_output_matches_first "01-JAN-2020" [] sampleLines30
    ((create_payments "01-JAN-2020" sampleLines30).getD []) _
    (by decide) (by decide)

/-- C6, amended: a singleton group is never skipped — `sum_payments` on a
group with exactly one member produces exactly one output record, built from
that member, whose amount is the two-decimal float formatting of
`float(amount[1:-2])` (which coincides with the input amount only in special
cases; in general value and formatting change). -/
theorem C6_singleton_amended (systime r : String) (p : Payment) (v t : ℤ × ℤ)
    (hv : pyFloat (pySlice1m2 p.amount) = some v)
    (ht : floatAdd (0, 0) v = some t) :
    sum_payments systime [(r, [p])] =
      some [summedPayment systime p ("\"" ++ fmt2 t ++ "\"")] := by
  unfold sum_payments sumGroup floatSumAmounts floatSumAmounts
  rw [hv]
  simp only [bind, Option.bind]
  rw [ht]
  rfl

/-- Witness for C6 at a singleton group with amount `"10.50" `. -/
theorem C6_singleton_amended_witness :
    pyFloat (pySlice1m2 (sampleAmtPayment "\"10.50\" ").amount)
      = some ((pyFloat "10.50").getD (0, 0)) ∧
    floatAdd (0, 0) ((pyFloat "10.50").getD (0, 0))
      = some ((pyFloat "10.50").getD (0, 0)) ∧
    sum_payments "01-JAN-2020" [("\"7\"", [sampleAmtPayment "\"10.50\" "])]
      = some [summedPayment "01-JAN-2020" (sampleAmtPayment "\"10.50\" ")
          ("\"" ++ fmt2 ((pyFloat "10.50").getD (0, 0)) ++ "\"")] :=
  ⟨by decide, by decide,
   C6_singleton_amended "01-JAN-2020" "\"7\"" (sampleAmtPayment "\"10.50\" ")
     ((pyFloat "10.50").getD (0, 0)) ((pyFloat "10.50").getD (0, 0))
     (by decide) (by decide)⟩

theorem rneRound_exact (x : ℕ) {d : ℕ} (hd : 0 < d) : rneRound (x * d) d = x := by
  unfold rneRound
  rw [Nat.mul_div_cancel _ hd, Nat.mul_mod_left]
  simp [hd]

theorem twoLtOfCross {x y u v : ℕ} (hxv : x * v = u * y)
    (hlt : 2 * x < y) (hv : 0 < v) : 2 * u < v := by
  by_contra hge
  push_neg at hge
  have h2 : 2 * x * v < y * v := mul_lt_mul_of_pos_right hlt hv
  have h2b : 2 * (u * y) < y * v := by
    rw [mul_assoc, hxv] at h2
    exact h2
  have h3 : y * v ≤ 2 * (u * y) := by
    calc y * v ≤ y * (2 * u) := Nat.mul_le_mul_left y hge
    _ = 2 * (u * y) := by ring
  exact absurd (lt_of_lt_of_le h2b h3) (lt_irrefl _)

theorem twoEqOfCross {x y u v : ℕ} (hxv : x * v = u * y)
    (heq : 2 * x = y) (hy : 0 < y) : 2 * u = v := by
  have hbv : y * v = (2 * u) * y := by
    calc y * v = 2 * x * v := by rw [heq]
    _ = 2 * (x * v) := by ring
    _ = 2 * (u * y) := by rw [hxv]
    _ = (2 * u) * y := by ring
  have : v * y = (2 * u) * y := by rw [← hbv]; ring
  exact (Nat.eq_of_mul_eq_mul_right hy this).symm

theorem rneRound_congr {A B C D : ℕ} (hB : 0 < B) (hD : 0 < D)
    (h : A * D = C * B) : rneRound A B = rneRound C D := by
  have hr1 : A % B < B := Nat.mod_lt _ hB
  have hr2 : C % D < D := Nat.mod_lt _ hD
  have hkey : B * D * (A / B) + (A % B) * D = B * D * (C / D) + (C % D) * B := by
    have hA : B * (A / B) + A % B = A := Nat.div_add_mod A B
    have hC : D * (C / D) + C % D = C := Nat.div_add_mod C D
    calc B * D * (A / B) + (A % B) * D = (B * (A / B) + A % B) * D := by ring
    _ = A * D := by rw [hA]
    _ = C * B := h
    _ = (D * (C / D) + C % D) * B := by rw [hC]
    _ = B * D * (C / D) + (C % D) * B := by ring
  have hq : A / B = C / D := by
    have hBD : 0 < B * D := Nat.mul_pos hB hD
    have e1 : (B * D * (A / B) + (A % B) * D) / (B * D) = A / B := by
      rw [Nat.mul_add_div hBD, Nat.div_eq_of_lt (mul_lt_mul_of_pos_right hr1 hD)]
      omega
    have e2 : (B * D * (C / D) + (C % D) * B) / (B * D) = C / D := by
      have hlt : (C % D) * B < B * D := by
        calc (C % D) * B < D * B := mul_lt_mul_of_pos_right hr2 hB
        _ = B * D := by ring
      rw [Nat.mul_add_div hBD, Nat.div_eq_of_lt hlt]
      omega
    rw [← e1, hkey, e2]
  have hrr : (A % B) * D = (C % D) * B := by
    rw [hq] at hkey
    exact Nat.add_left_cancel hkey
  have c1 : 2 * (A % B) < B ↔ 2 * (C % D) < D :=
    ⟨fun hlt => twoLtOfCross hrr hlt hD, fun hlt => twoLtOfCross hrr.symm hlt hB⟩
  have ceq : 2 * (A % B) = B ↔ 2 * (C % D) = D :=
    ⟨fun heq => twoEqOfCross hrr heq hB, fun heq => twoEqOfCross hrr.symm heq hD⟩
  have c2 : B < 2 * (A % B) ↔ D < 2 * (C % D) := by omega
  show (if 2 * (A % B) < B then A / B
        else if B < 2 * (A % B) then A / B + 1
        else if (A / B) % 2 = 0 then A / B else A / B + 1)
     = (if 2 * (C % D) < D then C / D
        else if D < 2 * (C % D) then C / D + 1
        else if (C / D) % 2 = 0 then C / D else C / D + 1)
  by_cases h1 : 2 * (A % B) < B
  · rw [if_pos h1, if_pos (c1.mp h1), hq]
  · rw [if_neg h1, if_neg (fun hcd => h1 (c1.mpr hcd))]
    by_cases h2 : B < 2 * (A % B)
    · rw [if_pos h2, if_pos (c2.mp h2), hq]
    · rw [if_neg h2, if_neg (fun hcd => h2 (c2.mpr hcd)), hq]

theorem fmt2_eq_decFmt2 {v : ℤ × ℤ} {d : ℤ × ℕ} (h : dyadicEqDec v d) :
    fmt2 v = decFmt2 d := by
  obtain ⟨M, e⟩ := v
  obtain ⟨a, k⟩ := d
  unfold dyadicEqDec at h
  have hNabs : M.natAbs * 2 ^ (max e 0).toNat * 10 ^ k
      = a.natAbs * 2 ^ (max (-e) 0).toNat := by
    have hcongr := congrArg Int.natAbs h
    simpa [Int.natAbs_mul, Int.natAbs_pow] using hcongr
  have hp2 : (0 : ℤ) < 2 ^ (max e 0).toNat * 10 ^ k := by positivity
  have hq2 : (0 : ℤ) < 2 ^ (max (-e) 0).toNat := by positivity
  have hsign : M < 0 ↔ a < 0 := by
    constructor
    · intro hM
      by_contra hnot
      push_neg at hnot
      have hle : 0 ≤ a * 2 ^ (max (-e) 0).toNat := mul_nonneg hnot (le_of_lt hq2)
      rw [← h] at hle
      have hneg : M * 2 ^ (max e 0).toNat * (10 : ℤ) ^ k < 0 := by
        have : M * (2 ^ (max e 0).toNat * (10 : ℤ) ^ k) < 0 :=
          mul_neg_of_neg_of_pos hM hp2
        calc M * 2 ^ (max e 0).toNat * (10 : ℤ) ^ k
            = M * (2 ^ (max e 0).toNat * (10 : ℤ) ^ k) := by ring
        _ < 0 := this
      exact absurd hle (not_le.mpr hneg)
    · intro ha
      by_contra hnot
      push_neg at hnot
      have hle : 0 ≤ M * 2 ^ (max e 0).toNat * (10 : ℤ) ^ k := by
        have : 0 ≤ M * (2 ^ (max e 0).toNat * (10 : ℤ) ^ k) :=
          mul_nonneg hnot (le_of_lt hp2)
        calc (0 : ℤ) ≤ M * (2 ^ (max e 0).toNat * (10 : ℤ) ^ k) := this
        _ = M * 2 ^ (max e 0).toNat * (10 : ℤ) ^ k := by ring
      rw [h] at hle
      exact absurd hle (not_le.mpr (mul_neg_of_neg_of_pos ha hq2))
  have hcents : (if 0 ≤ e then M.natAbs * 100 * 2 ^ e.toNat
        else rneRound (M.natAbs * 100) (2 ^ (-e).toNat))
      = rneRound (a.natAbs * 100) (10 ^ k) := by
    by_cases hc : 0 ≤ e
    · rw [if_pos hc]
      have hmaxe : max e 0 = e := max_eq_left hc
      have hmaxne : max (-e) 0 = 0 := max_eq_right (neg_nonpos.mpr hc)
      rw [hmaxe, hmaxne] at hNabs
      simp only [Int.toNat_zero, pow_zero, mul_one] at hNabs
      have hval : a.natAbs * 100 = (M.natAbs * 100 * 2 ^ e.toNat) * 10 ^ k := by
        rw [← hNabs]
        ring
      rw [hval, rneRound_exact _ (by positivity)]
    · rw [if_neg hc]
      push_neg at hc
      have hmaxe : max e 0 = 0 := max_eq_right (le_of_lt hc)
      have hmaxne : max (-e) 0 = -e := max_eq_left (by omega)
      rw [hmaxe, hmaxne] at hNabs
      simp only [Int.toNat_zero, pow_zero, mul_one] at hNabs
      refine rneRound_congr (by positivity) (by positivity) ?_
      calc M.natAbs * 100 * 10 ^ k = (M.natAbs * 10 ^ k) * 100 := by ring
      _ = (a.natAbs * 2 ^ (-e).toNat) * 100 := by rw [hNabs]
      _ = a.natAbs * 100 * 2 ^ (-e).toNat := by ring
  show centsString (decide (M < 0)) _ = centsString (decide (a < 0)) _
  rw [decide_eq_decide.mpr hsign, hcents]

/-- C1, amended: `sum_payments` computes the group total in binary64
floating point; whenever the float total happens to denote exactly the
group's exact decimal sum (in particular when every parsed amount and every
partial sum is exactly representable, so no rounding error occurred), the
formatted total equals the exact decimal sum formatted to two decimal
places — on groups where float rounding does intervene the two can differ,
as the counterexample amount 2.675 shows. -/
theorem C1_float_total_decimal_agreement (systime r : String)
    (ps : List Payment) (t : ℤ × ℤ) (ds : List (ℤ × ℕ))
    (hne : ps ≠ [])
    (ht : floatSumAmounts (0, 0) ps = some t)
    (hds : (ps.map Payment.amount).mapM
        (fun s => parseDecCore (stripQuotesWs s).data) = some ds)
    (heq : dyadicEqDec t (ds.foldl decAdd (0, 0))) :
    ∃ out, sum_payments systime [(r, ps)] = some [out] ∧
      specDecimalTotal (ps.map Payment.amount) = some out.amount := by
  cases ps with
  | nil => exact absurd rfl hne
  | cons p0 tl =>
      refine ⟨summedPayment systime p0 ("\"" ++ fmt2 t ++ "\""), ?_, ?_⟩
      · unfold sum_payments sum_payments sumGroup
        rw [ht]
        simp only [bind, Option.bind]
      · unfold specDecimalTotal
        rw [hds]
        simp only [bind, Option.bind, Option.some.injEq]
        have : fmt2 t = decFmt2 (ds.foldl decAdd (0, 0)) := fmt2_eq_decFmt2 heq
        rw [this]
        rfl

/-- Witness for C1 at a group of two amounts, `"10.25" ` and `"3.75" `,
whose parsed values and float sum are exactly representable. -/
theorem C1_float_total_decimal_agreement_witness :
    ∃ out, sum_payments "01-JAN-2020"
        [("\"7\"", [sampleAmtPayment "\"10.25\" ", sampleAmtPayment "\"3.75\" "])]
        = some [out] ∧
      specDecimalTotal ([sampleAmtPayment "\"10.25\" ",
          sampleAmtPayment "\"3.75\" "].map Payment.amount) = some out.amount :=
  C1_float_total_decimal_agreement "01-JAN-2020" "\"7\""
    [sampleAmtPayment "\"10.25\" ", sampleAmtPayment "\"3.75\" "]
    ((floatSumAmounts (0, 0) [sampleAmtPayment "\"10.25\" ",
        sampleAmtPayment "\"3.75\" "]).getD (0, 0))
    [(1025, 2), (375, 2)]
    (by decide) (by decide) (by decide) (by decide)

end PaymentAgg
